import Mathlib

/-!
Formal model of the teeworlds master-server status poller (`src/main.py`).

The program queries a fixed registry of master servers over UDP
(`MasterCountProtocol`), collects one `MasterInfo` per endpoint per cycle
(`query_master` / `update`), renders the snapshot (`html_print`) and repeats
forever every 10 seconds (`main`).

Modelling choices:
* a byte is `Fin 256`, a datagram is a `List Byte`;
* the monotonic clock is modelled by `Int` timestamps carried by events;
* the per-session `asyncio.Future` is a `FutureState` with the library's
  single-assignment semantics: `set_result` / `set_exception` only take
  effect on a pending future, otherwise they raise and leave it unchanged;
* an `asyncio` session run is a fold of timed events (incoming datagrams and
  `error_received` callbacks) over the protocol state, split at the
  `wait_for` deadline: events before the deadline can resolve the future,
  at the deadline a still-pending future is cancelled (`TimeoutError`), and
  later events hit an already-completed future;
* Python's `sorted(..., key=attrgetter("name"))` compares names
  lexicographically by code point and is stable; it is modelled by a stable
  insertion sort over a code-point-lexicographic comparator.
-/

namespace MasterStatus

/-- A byte of a UDP datagram. -/
abbrev Byte := Fin 256

/-- The request packet `MasterCountProtocol.packet_count_request`:
ten `0xff` bytes followed by the ASCII tag `cou2`. -/
def packet_count_request : List Byte :=
  List.replicate 10 0xff ++ [0x63, 0x6f, 0x75, 0x32]

/-- The response packet `MasterCountProtocol.packet_count_response`:
ten `0xff` bytes followed by the ASCII tag `siz2`. -/
def packet_count_response : List Byte :=
  List.replicate 10 0xff ++ [0x73, 0x69, 0x7a, 0x32]

/-- The `MasterInfo` record with its class-level defaults: `name = ""`,
`server_count = None`, `latency = None`, `status = ""`. -/
structure MasterInfo where
  name : String := ""
  server_count : Option Nat := none
  latency : Option Int := none
  status : String := ""
deriving DecidableEq

/-- A freshly constructed `MasterInfo()`. -/
def MasterInfo.init : MasterInfo := {}

/-- Python `data.startswith(pat)` on byte strings. -/
def startswith : List Byte → List Byte → Bool
  | _, [] => true
  | [], _ :: _ => false
  | d :: ds, p :: ps => d == p && startswith ds ps

/-- Python `struct.unpack('!H', bs)[0]`: requires exactly two bytes and decodes them
as a big-endian unsigned 16-bit integer; `none` models the `struct.error`
raised on any other length. -/
def unpack_H : List Byte → Option Nat
  | [b1, b2] => some (b1.val * 256 + b2.val)
  | _ => none

/-- The state of the session's `asyncio.Future` (`self.waiter`). -/
inductive FutureState where
  | pending
  | result (info : MasterInfo)
  | exception
  | cancelled
deriving DecidableEq

/-- The mutable state of one `MasterCountProtocol` instance after
`connection_made`: the recorded `time_start` and the `waiter` future. -/
structure ProtocolState where
  time_start : Int
  waiter : FutureState
deriving DecidableEq

/-- The handler `MasterCountProtocol.datagram_received(data)` at clock value `now`.
A datagram whose length is not strictly greater than the 14-byte response
packet, or which does not start with it, is ignored.  Otherwise the handler
computes the latency, decodes the remaining bytes with `struct.unpack('!H')`
(raising, hence changing nothing, unless exactly two bytes remain) and calls
`waiter.set_result`, which only succeeds on a pending future. -/
def datagram_received (st : ProtocolState) (data : List Byte) (now : Int) :
    ProtocolState :=
  if data.length ≤ packet_count_response.length ∨
      startswith data packet_count_response = false then
    st
  else
    match unpack_H (data.drop packet_count_response.length) with
    | none => st
    | some cnt =>
      match st.waiter with
      | .pending =>
          let info : MasterInfo :=
            { name := "", server_count := some cnt,
              latency := some (now - st.time_start), status := "ok" }
          { st with waiter := .result info }
      | _ => st

/-- The handler `MasterCountProtocol.error_received(exc)`:
it calls `waiter.set_exception(exc)`,
which only succeeds on a pending future. -/
def error_received (st : ProtocolState) : ProtocolState :=
  match st.waiter with
  | .pending => { st with waiter := .exception }
  | _ => st

/-- One event observable by a session: an incoming datagram or a transport
error reported through `error_received`. -/
inductive Event where
  | datagram (data : List Byte)
  | err
deriving DecidableEq

/-- An event together with the monotonic-clock instant of its delivery. -/
structure TimedEvent where
  time : Int
  ev : Event
deriving DecidableEq

/-- Deliver one event to the protocol. -/
def deliver (st : ProtocolState) (e : TimedEvent) : ProtocolState :=
  match e.ev with
  | .datagram data => datagram_received st data e.time
  | .err => error_received st

/-- Deliver a list of events in order. -/
def run_events (st : ProtocolState) (events : List TimedEvent) : ProtocolState :=
  events.foldl deliver st

/-- The events delivered before the `wait_for` deadline `start + timeout`. -/
def early_events (start timeout : Int) (events : List TimedEvent) :
    List TimedEvent :=
  events.filter (fun e => decide (e.time < start + timeout))

/-- The events delivered at or after the `wait_for` deadline. -/
def late_events (start timeout : Int) (events : List TimedEvent) :
    List TimedEvent :=
  events.filter (fun e => !decide (e.time < start + timeout))

/-- The state of the waiter future as observed by
`asyncio.wait_for(protocol.response(), timeout)`: events before the deadline
are delivered; if the future is then still pending, `wait_for` cancels it and
raises `asyncio.TimeoutError`. -/
def wait_result (start timeout : Int) (events : List TimedEvent) : FutureState :=
  match (run_events ⟨start, .pending⟩ (early_events start timeout events)).waiter with
  | .pending => .cancelled
  | w => w

/-- The protocol state after the whole event schedule: the transport is never
closed, so datagrams arriving after the deadline are still delivered to the
protocol (whose future is by then completed or cancelled). -/
def final_state (start timeout : Int) (events : List TimedEvent) : ProtocolState :=
  let st1 := run_events ⟨start, .pending⟩ (early_events start timeout events)
  run_events { st1 with waiter := wait_result start timeout events }
    (late_events start timeout events)

/-- What happens to one session: either `loop.create_datagram_endpoint`
itself raises (`setupFailure`), or the endpoint is created at clock value
`start` and the given events are delivered to it under the given
`wait_for` timeout. -/
inductive SessionConfig where
  | setupFailure
  | runs (start timeout : Int) (events : List TimedEvent)
deriving DecidableEq

/-- The coroutine `query_master(name, addr, loop, timeout)`: awaits the session's future
with `asyncio.wait_for`; `asyncio.TimeoutError` yields a fresh `MasterInfo`
with status `"timeout"`, any other exception (endpoint creation failure or an
exception stored in the future) yields status `"error"`; in every case
`masterinfo.name = name` is assigned before returning. -/
def query_master (name : String) (cfg : SessionConfig) : MasterInfo :=
  match cfg with
  | .setupFailure => { MasterInfo.init with status := "error", name := name }
  | .runs start timeout events =>
    match wait_result start timeout events with
    | .result info => { info with name := name }
    | .cancelled => { MasterInfo.init with status := "timeout", name := name }
    | _ => { MasterInfo.init with status := "error", name := name }

/-- The `masters` registry, in its (insertion-ordered) dict order. -/
def masters : List (String × String × Nat) :=
  [("master1", "master1.teeworlds.com", 8300),
   ("master2", "master2.teeworlds.com", 8300),
   ("master3", "master3.teeworlds.com", 8300),
   ("master4", "master4.teeworlds.com", 8300),
   ("website", "teeworlds.com", 8300)]

/-- The results of the per-endpoint tasks spawned by `update`, in registry
order: one `query_master` call per registry entry. -/
def cycle_results (registry : List (String × SessionConfig)) : List MasterInfo :=
  registry.map (fun p => query_master p.1 p.2)

/-- Code-point-lexicographic comparison of character lists, as Python string
comparison performs it. -/
def lexLe : List Char → List Char → Bool
  | [], _ => true
  | _ :: _, [] => false
  | a :: as, b :: bs =>
    decide (a.toNat < b.toNat) || (decide (a.toNat = b.toNat) && lexLe as bs)

/-- Python `a <= b` on strings: lexicographic by code point. -/
def strLe (a b : String) : Bool := lexLe a.data b.data

/-- The sort key of `sorted(..., key=attrgetter("name"))`. -/
def nameLe (a b : MasterInfo) : Bool := strLe a.name b.name

/-- Insert into a list sorted by name, before the first element it is `≤`:
the insertion step of a stable sort. -/
def insertByName (a : MasterInfo) : List MasterInfo → List MasterInfo
  | [] => [a]
  | b :: l => if nameLe a b then a :: b :: l else b :: insertByName a l

/-- Python `sorted(..., key=attrgetter("name"))`: a stable sort by name.  Python uses
a stable merge sort; since a stable sort's output is determined by the
comparator and the input order, a stable insertion sort is an equivalent
model. -/
def sortByName : List MasterInfo → List MasterInfo
  | [] => []
  | x :: xs => insertByName x (sortByName xs)

/-- The snapshot built by `update` from the results of the completed tasks:
`sorted(map(asyncio.Future.result, done), key=attrgetter("name"))`.
`done` is a set, so the argument list is some permutation of
`cycle_results`; writing the rendered snapshot to the output file is the
delivery step modelled in `main_trace`. -/
def update (arrived : List MasterInfo) : List MasterInfo := sortByName arrived

/-- One rendered table row of `html_print`. -/
structure Row where
  name : String
  status : String
  servers : String
  latency : String
deriving DecidableEq

/-- The latency cell `"{lat_ms:.0f}ms".format(lat_ms=latency*1000)`; with
integer-modelled times the multiplication is exact, so no rounding occurs. -/
def fmt_latency (lat : Int) : String := toString (lat * 1000) ++ "ms"

/-- One iteration of the `html_print` row loop:
`if not masterinfo.server_count or not masterinfo.latency` prints the dash
row, otherwise the full row.  Python truthiness makes both `None` and `0`
falsy, which the match below reproduces exactly. -/
def render_row (m : MasterInfo) : Row :=
  match m.server_count, m.latency with
  | some n, some lat =>
    if n = 0 ∨ lat = 0 then
      { name := m.name, status := m.status, servers := "-", latency := "-" }
    else
      { name := m.name, status := m.status, servers := toString n,
        latency := fmt_latency lat }
  | _, _ => { name := m.name, status := m.status, servers := "-", latency := "-" }

/-- The rows printed by `html_print` for a snapshot (the surrounding table
markup carries no per-endpoint information). -/
def html_print (ms : List MasterInfo) : List Row := ms.map render_row

/-- One observable step of the poll loop in `main`. -/
inductive LoopEvent where
  | deliverSnapshot (snapshot : List MasterInfo)
  | sleep (duration : Nat)
deriving DecidableEq

/-- The trace of the first `n` iterations of `main`'s `while True` loop:
each iteration runs `update` to completion (producing and delivering the
snapshot for that cycle's arrivals) and then `asyncio.sleep(10)`. -/
def main_trace (arrivals : Nat → List MasterInfo) : Nat → List LoopEvent
  | 0 => []
  | n + 1 =>
      main_trace arrivals n ++
        [.deliverSnapshot (update (arrivals n)), .sleep 10]

/-- Operations on the session's transport resource. -/
inductive ResourceAction where
  | create
  | close
deriving DecidableEq

/-- The transport operations `query_master` performs on a session: it calls
`loop.create_datagram_endpoint` (which on failure creates nothing), and the
source contains no `transport.close()` call on any path — neither after a
result, nor on timeout, nor on error. -/
def query_master_transport_actions (cfg : SessionConfig) : List ResourceAction :=
  match cfg with
  | .setupFailure => []
  | .runs _ _ _ => [.create]

/-- A datagram that makes `datagram_received` complete the future: strictly
longer than the 14-byte response packet, starting with it, and with exactly
two bytes after it (so that `struct.unpack('!H')` succeeds). -/
def resolving (data : List Byte) : Bool :=
  decide (packet_count_response.length < data.length) &&
  startswith data packet_count_response &&
  decide (data.length = packet_count_response.length + 2)

/-- An event that can change the state of a pending waiter future: a
transport error, or a resolving datagram. -/
def changes_waiter (e : TimedEvent) : Bool :=
  match e.ev with
  | .err => true
  | .datagram data => resolving data

/-! Basic facts about the lexicographic comparator. -/

theorem lexLe_cons_iff (a b : Char) (as bs : List Char) :
    lexLe (a :: as) (b :: bs) = true ↔
      a.toNat < b.toNat ∨ (a.toNat = b.toNat ∧ lexLe as bs = true) := by
  simp [lexLe]

theorem lexLe_refl : ∀ as : List Char, lexLe as as = true := by
  intro as
  induction as with
  | nil => rfl
  | cons a as ih => exact (lexLe_cons_iff a a as as).mpr (Or.inr ⟨rfl, ih⟩)

theorem lexLe_total : ∀ as bs : List Char, lexLe as bs = true ∨ lexLe bs as = true := by
  intro as
  induction as with
  | nil => intro bs; left; rfl
  | cons a as ih =>
    intro bs
    cases bs with
    | nil => right; rfl
    | cons b bs =>
      rw [lexLe_cons_iff, lexLe_cons_iff]
      rcases Nat.lt_trichotomy a.toNat b.toNat with h | h | h
      · exact Or.inl (Or.inl h)
      · rcases ih bs with h' | h'
        · exact Or.inl (Or.inr ⟨h, h'⟩)
        · exact Or.inr (Or.inr ⟨h.symm, h'⟩)
      · exact Or.inr (Or.inl h)

theorem lexLe_trans : ∀ as bs cs : List Char, lexLe as bs = true →
    lexLe bs cs = true → lexLe as cs = true := by
  intro as
  induction as with
  | nil => intro bs cs _ _; rfl
  | cons a as ih =>
    intro bs cs h1 h2
    cases bs with
    | nil => simp [lexLe] at h1
    | cons b bs =>
      cases cs with
      | nil => simp [lexLe] at h2
      | cons c cs =>
        rw [lexLe_cons_iff] at h1 h2 ⊢
        rcases h1 with h1 | ⟨h1e, h1r⟩
        · rcases h2 with h2 | ⟨h2e, _⟩
          · exact Or.inl (by omega)
          · exact Or.inl (by omega)
        · rcases h2 with h2 | ⟨h2e, h2r⟩
          · exact Or.inl (by omega)
          · exact Or.inr ⟨by omega, ih bs cs h1r h2r⟩

theorem lexLe_antisymm : ∀ as bs : List Char, lexLe as bs = true →
    lexLe bs as = true → as = bs := by
  intro as
  induction as with
  | nil =>
    intro bs _ h2
    cases bs with
    | nil => rfl
    | cons b bs => simp [lexLe] at h2
  | cons a as ih =>
    intro bs h1 h2
    cases bs with
    | nil => simp [lexLe] at h1
    | cons b bs =>
      rw [lexLe_cons_iff] at h1 h2
      rcases h1 with h1 | ⟨h1e, h1r⟩
      · rcases h2 with h2 | ⟨h2e, _⟩
        · omega
        · omega
      · rcases h2 with h2 | ⟨h2e, h2r⟩
        · omega
        · have : a = b := Char.ext (UInt32.ext h1e)
          rw [this, ih bs h1r h2r]

theorem strLe_refl (a : String) : strLe a a = true := lexLe_refl a.data

theorem strLe_total (a b : String) : strLe a b = true ∨ strLe b a = true :=
  lexLe_total a.data b.data

theorem strLe_trans {a b c : String} (h1 : strLe a b = true)
    (h2 : strLe b c = true) : strLe a c = true :=
  lexLe_trans a.data b.data c.data h1 h2

theorem strLe_antisymm {a b : String} (h1 : strLe a b = true)
    (h2 : strLe b a = true) : a = b :=
  String.ext (lexLe_antisymm a.data b.data h1 h2)

/-! Facts about the stable sort by name. -/

theorem insertByName_perm (a : MasterInfo) :
    ∀ l : List MasterInfo, (insertByName a l).Perm (a :: l) := by
  intro l
  induction l with
  | nil => exact List.Perm.refl _
  | cons b t ih =>
    simp only [insertByName]
    by_cases h : nameLe a b = true
    · simp [h]
    · simp only [h, if_false]
      exact (ih.cons b).trans (List.Perm.swap a b t)

theorem sortByName_perm : ∀ l : List MasterInfo, (sortByName l).Perm l := by
  intro l
  induction l with
  | nil => exact List.Perm.refl _
  | cons x xs ih =>
    exact (insertByName_perm x (sortByName xs)).trans (ih.cons x)

theorem sorted_insertByName (a : MasterInfo) :
    ∀ l : List MasterInfo, l.Sorted (fun x y => nameLe x y = true) →
      (insertByName a l).Sorted (fun x y => nameLe x y = true) := by
  intro l
  induction l with
  | nil =>
    intro _
    simp [insertByName, List.Sorted]
  | cons b t ih =>
    intro hs
    rcases List.sorted_cons.mp hs with ⟨hb, ht⟩
    simp only [insertByName]
    by_cases h : nameLe a b = true
    · simp only [h, if_true]
      refine List.sorted_cons.mpr ⟨?_, hs⟩
      intro x hx
      rcases List.mem_cons.mp hx with rfl | hx
      · exact h
      · exact strLe_trans h (hb x hx)
    · simp only [h, if_false]
      refine List.sorted_cons.mpr ⟨?_, ih ht⟩
      intro x hx
      rcases List.mem_cons.mp ((insertByName_perm a t).mem_iff.mp hx) with rfl | hx
      · rcases strLe_total x.name b.name with h' | h'
        · exact absurd h' h
        · exact h'
      · exact hb x hx

theorem sortByName_sorted : ∀ l : List MasterInfo,
    (sortByName l).Sorted (fun x y => nameLe x y = true) := by
  intro l
  induction l with
  | nil => simp [sortByName, List.Sorted]
  | cons x xs ih => exact sorted_insertByName x (sortByName xs) ih

/-- Two lists of `MasterInfo` that are permutations of each other, both sorted
by name, and whose names are distinct, are equal: the sorted snapshot is
determined by the multiset of results. -/
theorem sorted_nodup_names_eq :
    ∀ l₁ l₂ : List MasterInfo, l₁.Perm l₂ →
      l₁.Sorted (fun x y => nameLe x y = true) →
      l₂.Sorted (fun x y => nameLe x y = true) →
      (l₁.map MasterInfo.name).Nodup → l₁ = l₂ := by
  intro l₁
  induction l₁ with
  | nil =>
    intro l₂ hp _ _ _
    exact hp.nil_eq
  | cons a t ih =>
    intro l₂ hp h₁ h₂ hn
    cases l₂ with
    | nil => exact absurd hp.symm.nil_eq (by simp)
    | cons b t₂ =>
      rcases List.sorted_cons.mp h₁ with ⟨ha1, ht1⟩
      rcases List.sorted_cons.mp h₂ with ⟨hb2, ht2⟩
      have hab : a = b := by
        have hmem_a : a ∈ b :: t₂ := hp.subset (List.mem_cons_self a t)
        have hmem_b : b ∈ a :: t := hp.symm.subset (List.mem_cons_self b t₂)
        have hle_ab : nameLe a b = true := by
          rcases List.mem_cons.mp hmem_b with rfl | hb
          · exact strLe_refl _
          · exact ha1 b hb
        have hle_ba : nameLe b a = true := by
          rcases List.mem_cons.mp hmem_a with rfl | haa
          · exact strLe_refl _
          · exact hb2 a haa
        have hname : a.name = b.name := strLe_antisymm hle_ab hle_ba
        rcases List.mem_cons.mp hmem_a with rfl | haa
        · rfl
        · exfalso
          have hpm : ((a :: t).map MasterInfo.name).Perm
              ((b :: t₂).map MasterInfo.name) := hp.map MasterInfo.name
          have hn₂ : ((b :: t₂).map MasterInfo.name).Nodup :=
            (hpm.nodup_iff).mp hn
          rcases List.nodup_cons.mp hn₂ with ⟨hbn, _⟩
          exact hbn (hname ▸ List.mem_map.mpr ⟨a, haa, rfl⟩)
      subst hab
      have hpt : t.Perm t₂ := hp.cons_inv
      have hnt : (t.map MasterInfo.name).Nodup := (List.nodup_cons.mp hn).2
      rw [ih t₂ hpt ht1 ht2 hnt]

/-! Facts about the protocol state machine. -/

theorem unpack_H_eq_none (bs : List Byte) (h : bs.length ≠ 2) :
    unpack_H bs = none := by
  match bs with
  | [] => rfl
  | [_] => rfl
  | [_, _] => exact absurd rfl h
  | _ :: _ :: _ :: _ => rfl

theorem startswith_append (p rest : List Byte) :
    startswith (p ++ rest) p = true := by
  induction p with
  | nil =>
    cases rest with
    | nil => rfl
    | cons r rs => rfl
  | cons x xs ih => simp [startswith, ih]

theorem resolving_iff (data : List Byte) :
    resolving data = true ↔
      packet_count_response.length < data.length ∧
      startswith data packet_count_response = true ∧
      data.length = packet_count_response.length + 2 := by
  simp [resolving, and_assoc]

theorem datagram_received_not_resolving (st : ProtocolState) (data : List Byte)
    (now : Int) (h : resolving data = false) :
    datagram_received st data now = st := by
  unfold datagram_received
  split
  · rfl
  · rename_i hc
    push_neg at hc
    rcases hc with ⟨hlen, hsw⟩
    have hsw' : startswith data packet_count_response = true := by
      cases hq : startswith data packet_count_response
      · exact absurd hq hsw
      · rfl
    have hne : data.length ≠ packet_count_response.length + 2 := by
      intro he
      rw [(resolving_iff data).mpr ⟨hlen, hsw', he⟩] at h
      simp at h
    have hdrop : unpack_H (data.drop packet_count_response.length) = none := by
      apply unpack_H_eq_none
      rw [List.length_drop]
      omega
    rw [hdrop]

theorem datagram_received_done (st : ProtocolState) (data : List Byte)
    (now : Int) (h : st.waiter ≠ .pending) :
    datagram_received st data now = st := by
  unfold datagram_received
  split
  · rfl
  · cases hu : unpack_H (data.drop packet_count_response.length) with
    | none => rfl
    | some cnt =>
      cases hw : st.waiter with
      | pending => exact absurd hw h
      | result info => rfl
      | exception => rfl
      | cancelled => rfl

theorem error_received_done (st : ProtocolState) (h : st.waiter ≠ .pending) :
    error_received st = st := by
  unfold error_received
  cases hw : st.waiter with
  | pending => exact absurd hw h
  | result info => rfl
  | exception => rfl
  | cancelled => rfl

theorem deliver_done (st : ProtocolState) (e : TimedEvent)
    (h : st.waiter ≠ .pending) : deliver st e = st := by
  cases e with
  | mk t ev =>
    cases ev with
    | datagram data => exact datagram_received_done st data t h
    | err => exact error_received_done st h

theorem run_events_done (st : ProtocolState) (events : List TimedEvent)
    (h : st.waiter ≠ .pending) : run_events st events = st := by
  induction events with
  | nil => rfl
  | cons e l ih =>
    show run_events (deliver st e) l = st
    rw [deliver_done st e h]
    exact ih

theorem deliver_not_changing (st : ProtocolState) (e : TimedEvent)
    (h : changes_waiter e = false) : deliver st e = st := by
  cases e with
  | mk t ev =>
    cases ev with
    | datagram data => exact datagram_received_not_resolving st data t h
    | err => exact absurd h (by simp [changes_waiter])

theorem run_events_not_changing (st : ProtocolState) (events : List TimedEvent)
    (h : ∀ e ∈ events, changes_waiter e = false) : run_events st events = st := by
  induction events with
  | nil => rfl
  | cons e l ih =>
    show run_events (deliver st e) l = st
    rw [deliver_not_changing st e (h e (List.mem_cons_self e l))]
    exact ih (fun x hx => h x (List.mem_cons_of_mem e hx))

theorem run_events_append (st : ProtocolState) (l₁ l₂ : List TimedEvent) :
    run_events st (l₁ ++ l₂) = run_events (run_events st l₁) l₂ :=
  List.foldl_append deliver st l₁ l₂

/-- The `MasterInfo` that `datagram_received` stores in the future on a
well-formed response: no name yet, the decoded count, the measured latency,
and status `"ok"`. -/
def ok_info (cnt : Nat) (lat : Int) : MasterInfo :=
  { name := "", server_count := some cnt, latency := some lat, status := "ok" }

theorem datagram_received_resolves (st : ProtocolState) (b1 b2 : Byte)
    (now : Int) (h : st.waiter = .pending) :
    datagram_received st (packet_count_response ++ [b1, b2]) now =
      { st with waiter :=
          FutureState.result (ok_info (b1.val * 256 + b2.val) (now - st.time_start)) } := by
  have hlen : (packet_count_response ++ [b1, b2]).length =
      packet_count_response.length + 2 := by
    simp
  have hcond : ¬((packet_count_response ++ [b1, b2]).length ≤
        packet_count_response.length ∨
      startswith (packet_count_response ++ [b1, b2]) packet_count_response
        = false) := by
    rw [hlen, startswith_append]
    simp
  unfold datagram_received
  rw [if_neg hcond, List.drop_left, h]
  rfl

/-- The future only ever completes with a result produced by
`datagram_received`: an `ok_info`, i.e. a `MasterInfo` with status `"ok"`
and both `server_count` and `latency` present. -/
def result_shape (fs : FutureState) : Prop :=
  ∀ info : MasterInfo, fs = .result info → ∃ cnt lat, info = ok_info cnt lat

theorem deliver_result_shape (st : ProtocolState) (e : TimedEvent)
    (h : result_shape st.waiter) : result_shape (deliver st e).waiter := by
  cases e with
  | mk t ev =>
    cases ev with
    | err =>
      show result_shape (error_received st).waiter
      unfold error_received
      cases hw : st.waiter with
      | pending => intro info hinfo; simp at hinfo
      | result info => exact h
      | exception => exact h
      | cancelled => exact h
    | datagram data =>
      show result_shape (datagram_received st data t).waiter
      unfold datagram_received
      split
      · exact h
      · cases hu : unpack_H (data.drop packet_count_response.length) with
        | none => exact h
        | some cnt =>
          cases hw : st.waiter with
          | pending =>
            intro info hinfo
            simp only [FutureState.result.injEq] at hinfo
            exact ⟨cnt, t - st.time_start, hinfo.symm⟩
          | result info => exact h
          | exception => exact h
          | cancelled => exact h

theorem run_events_result_shape (st : ProtocolState) (events : List TimedEvent)
    (h : result_shape st.waiter) : result_shape (run_events st events).waiter := by
  induction events generalizing st with
  | nil => exact h
  | cons e l ih =>
    show result_shape (run_events (deliver st e) l).waiter
    exact ih (deliver st e) (deliver_result_shape st e h)

theorem wait_result_result_shape (start timeout : Int) (events : List TimedEvent) :
    result_shape (wait_result start timeout events) := by
  unfold wait_result
  have h0 : result_shape (ProtocolState.mk start .pending).waiter := by
    intro info hinfo; simp at hinfo
  have h1 := run_events_result_shape ⟨start, .pending⟩
    (early_events start timeout events) h0
  cases hw : (run_events ⟨start, .pending⟩ (early_events start timeout events)).waiter with
  | pending => intro info hinfo; simp at hinfo
  | result info => rw [hw] at h1; exact h1
  | exception => intro info hinfo; simp at hinfo
  | cancelled => intro info hinfo; simp at hinfo

/-! Session-level facts: how `wait_for` observes the future. -/

theorem run_events_cons (st : ProtocolState) (e : TimedEvent)
    (l : List TimedEvent) : run_events st (e :: l) = run_events (deliver st e) l :=
  rfl

theorem early_events_split (start timeout : Int) (pre post : List TimedEvent)
    (d : TimedEvent) (hd : d.time < start + timeout) :
    early_events start timeout (pre ++ d :: post) =
      early_events start timeout pre ++ d :: early_events start timeout post := by
  unfold early_events
  rw [List.filter_append, List.filter_cons]
  simp [hd]

theorem early_events_sub (start timeout : Int) (events : List TimedEvent)
    (h : ∀ e ∈ events, changes_waiter e = false) :
    ∀ e ∈ early_events start timeout events, changes_waiter e = false :=
  fun e he => h e (List.mem_of_mem_filter he)

theorem wait_result_first_match (start timeout t : Int) (b1 b2 : Byte)
    (pre post : List TimedEvent)
    (hpre : ∀ e ∈ pre, changes_waiter e = false)
    (ht : t < start + timeout) :
    wait_result start timeout
        (pre ++ TimedEvent.mk t (Event.datagram (packet_count_response ++ [b1, b2])) :: post) =
      FutureState.result (ok_info (b1.val * 256 + b2.val) (t - start)) := by
  unfold wait_result
  rw [early_events_split start timeout pre post _ ht, run_events_append,
      run_events_not_changing _ _ (early_events_sub start timeout pre hpre),
      run_events_cons]
  have hdel : deliver ⟨start, FutureState.pending⟩
      ⟨t, Event.datagram (packet_count_response ++ [b1, b2])⟩ =
      ⟨start, FutureState.result (ok_info (b1.val * 256 + b2.val) (t - start))⟩ := by
    show datagram_received ⟨start, FutureState.pending⟩ _ t = _
    rw [datagram_received_resolves _ b1 b2 t rfl]
  rw [hdel, run_events_done _ _ (by simp)]

theorem wait_result_quiet (start timeout : Int) (events : List TimedEvent)
    (h : ∀ e ∈ events, e.time < start + timeout → changes_waiter e = false) :
    wait_result start timeout events = FutureState.cancelled := by
  unfold wait_result
  rw [run_events_not_changing]
  intro e he
  rcases List.mem_filter.mp he with ⟨hmem, hlt⟩
  exact h e hmem (by simpa using hlt)

theorem wait_result_err (start timeout t : Int) (pre post : List TimedEvent)
    (hpre : ∀ e ∈ pre, changes_waiter e = false)
    (ht : t < start + timeout) :
    wait_result start timeout (pre ++ TimedEvent.mk t Event.err :: post) =
      FutureState.exception := by
  unfold wait_result
  rw [early_events_split start timeout pre post _ ht, run_events_append,
      run_events_not_changing _ _ (early_events_sub start timeout pre hpre),
      run_events_cons]
  have hdel : deliver ⟨start, FutureState.pending⟩ ⟨t, Event.err⟩ =
      ⟨start, FutureState.exception⟩ := rfl
  rw [hdel, run_events_done _ _ (by simp)]

theorem query_master_name (n : String) (cfg : SessionConfig) :
    (query_master n cfg).name = n := by
  cases cfg with
  | setupFailure => rfl
  | runs start timeout events =>
    cases hw : wait_result start timeout events with
    | pending => simp [query_master, hw]
    | result info => simp [query_master, hw]
    | exception => simp [query_master, hw]
    | cancelled => simp [query_master, hw]

/-- The function `query_master` always returns exactly one of three results: an `ok_info`
with the endpoint's name attached, a timeout `MasterInfo`, or an error
`MasterInfo`. -/
theorem query_master_cases (n : String) (cfg : SessionConfig) :
    (∃ cnt lat, query_master n cfg =
      { name := n, server_count := some cnt, latency := some lat, status := "ok" }) ∨
    query_master n cfg =
      { name := n, server_count := none, latency := none, status := "timeout" } ∨
    query_master n cfg =
      { name := n, server_count := none, latency := none, status := "error" } := by
  cases cfg with
  | setupFailure => right; right; rfl
  | runs start timeout events =>
    have hshape := wait_result_result_shape start timeout events
    cases hw : wait_result start timeout events with
    | pending =>
      right; right
      simp [query_master, hw, MasterInfo.init]
    | result info =>
      left
      rcases hshape info hw with ⟨cnt, lat, hinfo⟩
      refine ⟨cnt, lat, ?_⟩
      simp [query_master, hw, hinfo, ok_info]
    | exception =>
      right; right
      simp [query_master, hw, MasterInfo.init]
    | cancelled =>
      right; left
      simp [query_master, hw, MasterInfo.init]

theorem query_master_status (n : String) (cfg : SessionConfig) :
    (query_master n cfg).status = "ok" ∨ (query_master n cfg).status = "timeout" ∨
      (query_master n cfg).status = "error" := by
  rcases query_master_cases n cfg with ⟨cnt, lat, h⟩ | h | h
  · left; rw [h]
  · right; left; rw [h]
  · right; right; rw [h]

theorem query_master_not_ok (n : String) (cfg : SessionConfig)
    (h : (query_master n cfg).status ≠ "ok") :
    query_master n cfg =
      { name := n, server_count := none, latency := none,
        status := (query_master n cfg).status } := by
  rcases query_master_cases n cfg with ⟨cnt, lat, hq⟩ | hq | hq
  · exact absurd (by rw [hq]) h
  · rw [hq]
  · rw [hq]

theorem resolving_false_of_nonmatching (d : List Byte)
    (h : d.length ≤ packet_count_response.length ∨
      startswith d packet_count_response = false) :
    resolving d = false := by
  rw [resolving]
  rcases h with h | h
  · simp [Nat.not_lt.mpr h]
  · simp [h]

theorem wait_result_ne_pending (start timeout : Int) (events : List TimedEvent) :
    wait_result start timeout events ≠ FutureState.pending := by
  unfold wait_result
  cases (run_events ⟨start, FutureState.pending⟩
      (early_events start timeout events)).waiter with
  | pending => simp
  | result info => simp
  | exception => simp
  | cancelled => simp

theorem final_state_waiter (start timeout : Int) (events : List TimedEvent) :
    (final_state start timeout events).waiter = wait_result start timeout events := by
  simp only [final_state]
  rw [run_events_done _ _ (wait_result_ne_pending start timeout events)]

theorem wait_result_inert_cons (start timeout : Int) (e : TimedEvent)
    (rest : List TimedEvent) (h : changes_waiter e = false) :
    wait_result start timeout (e :: rest) = wait_result start timeout rest := by
  have hearly : run_events ⟨start, FutureState.pending⟩
      (early_events start timeout (e :: rest)) =
      run_events ⟨start, FutureState.pending⟩ (early_events start timeout rest) := by
    unfold early_events
    rw [List.filter_cons]
    by_cases hc : decide (e.time < start + timeout) = true
    · rw [if_pos hc, run_events_cons, deliver_not_changing _ _ h]
    · rw [if_neg hc]
  unfold wait_result
  rw [hearly]

theorem cycle_results_names (registry : List (String × SessionConfig)) :
    (cycle_results registry).map MasterInfo.name = registry.map Prod.fst := by
  induction registry with
  | nil => rfl
  | cons p l ih =>
    simp only [cycle_results, List.map_cons] at ih ⊢
    rw [query_master_name, ih]

/-! The claims. -/

/-- C2: for every endpoint whose first matching datagram (the 14-byte
response packet followed by a 2-byte payload) arrives before the
`per_query_timeout` deadline — with no earlier future-changing event — the
session resolves to status `"ok"` with `server_count` equal to the big-endian
unsigned 16-bit interpretation of the two payload bytes (in particular below
`2^16`), and a recorded latency that is at least zero. -/
theorem first_match_resolves_ok (name : String) (start timeout t : Int)
    (b1 b2 : Byte) (pre post : List TimedEvent)
    (hpre : ∀ e ∈ pre, changes_waiter e = false)
    (ht : t < start + timeout) (hstart : start ≤ t) :
    query_master name (SessionConfig.runs start timeout
        (pre ++ TimedEvent.mk t
          (Event.datagram (packet_count_response ++ [b1, b2])) :: post)) =
      { name := name, server_count := some (b1.val * 256 + b2.val),
        latency := some (t - start), status := "ok" } ∧
    b1.val * 256 + b2.val < 65536 ∧
    (0 : Int) ≤ t - start := by
  refine ⟨?_, ?_, by omega⟩
  · simp [query_master,
      wait_result_first_match start timeout t b1 b2 pre post hpre ht, ok_info]
  · have h1 := b1.isLt
    have h2 := b2.isLt
    omega

/-- C2 witness: a session whose only datagram is a well-formed response with
payload bytes `0, 120` arriving at time 2 (after one short garbage datagram)
resolves to `ok` with 120 servers and latency 2. -/
theorem first_match_resolves_ok_witness :
    query_master "master1" (SessionConfig.runs 0 5
        ([TimedEvent.mk 1 (Event.datagram [0x00])] ++ TimedEvent.mk 2
          (Event.datagram (packet_count_response ++ [0, 120])) :: [])) =
      { name := "master1", server_count := some ((0: Byte).val * 256 + (120 : Byte).val),
        latency := some ((2 : Int) - 0), status := "ok" } ∧
    (0 : Byte).val * 256 + (120 : Byte).val < 65536 ∧
    (0 : Int) ≤ (2 : Int) - 0 :=
  first_match_resolves_ok "master1" 0 5 2 0 120
    [TimedEvent.mk 1 (Event.datagram [0x00])] [] (by decide) (by decide) (by decide)

/-- C3: a datagram that does not start with the 14-byte response packet, or
is not strictly longer than it, is silently discarded: the protocol state is
unchanged and the session is not terminated; and a session that saw only such
non-matching datagrams still resolves to `ok` from a later matching
datagram's data. -/
theorem nonmatching_ignored (st : ProtocolState) (data : List Byte) (now : Int)
    (name : String) (start timeout t : Int) (b1 b2 : Byte)
    (pre post : List TimedEvent)
    (hnm : data.length ≤ packet_count_response.length ∨
      startswith data packet_count_response = false)
    (hpre : ∀ e ∈ pre, ∃ d, e.ev = Event.datagram d ∧
      (d.length ≤ packet_count_response.length ∨
        startswith d packet_count_response = false))
    (ht : t < start + timeout) :
    datagram_received st data now = st ∧
    query_master name (SessionConfig.runs start timeout
        (pre ++ TimedEvent.mk t
          (Event.datagram (packet_count_response ++ [b1, b2])) :: post)) =
      { name := name, server_count := some (b1.val * 256 + b2.val),
        latency := some (t - start), status := "ok" } := by
  constructor
  · unfold datagram_received
    rw [if_pos hnm]
  · have hpre' : ∀ e ∈ pre, changes_waiter e = false := by
      intro e he
      rcases hpre e he with ⟨d, hev, hd⟩
      obtain ⟨et, ev⟩ := e
      simp only at hev
      rw [hev] at *
      show resolving d = false
      exact resolving_false_of_nonmatching d hd
    simp [query_master,
      wait_result_first_match start timeout t b1 b2 pre post hpre' ht, ok_info]

/-- C3 witness: a too-short datagram and a right-length wrong-tag datagram
are both discarded, and the session still resolves `ok` from the later real
response. -/
theorem nonmatching_ignored_witness :
    datagram_received ⟨0, FutureState.pending⟩ [0xff, 0xff] 1 =
      ⟨0, FutureState.pending⟩ ∧
    query_master "m" (SessionConfig.runs 0 5
        ([TimedEvent.mk 1 (Event.datagram (List.replicate 16 0xff))] ++
          TimedEvent.mk 2
            (Event.datagram (packet_count_response ++ [1, 4])) :: [])) =
      { name := "m", server_count := some ((1 : Byte).val * 256 + (4 : Byte).val),
        latency := some ((2 : Int) - 0), status := "ok" } :=
  nonmatching_ignored ⟨0, FutureState.pending⟩ [0xff, 0xff] 1 "m" 0 5 2 1 4
    [TimedEvent.mk 1 (Event.datagram (List.replicate 16 0xff))] []
    (by decide)
    (by
      intro e he
      rw [List.mem_singleton] at he
      subst he
      exact ⟨List.replicate 16 0xff, rfl, by decide⟩)
    (by decide)

/-- C4: for every endpoint whose session sees no future-changing event (no
matching datagram and no transport error) before the `per_query_timeout`
deadline, `query_master` returns a `MasterInfo` with status `"timeout"` and
with both `server_count` and `latency` absent. -/
theorem no_response_times_out (name : String) (start timeout : Int)
    (events : List TimedEvent)
    (h : ∀ e ∈ events, e.time < start + timeout → changes_waiter e = false) :
    query_master name (SessionConfig.runs start timeout events) =
      { name := name, server_count := none, latency := none,
        status := "timeout" } := by
  simp [query_master, wait_result_quiet start timeout events h, MasterInfo.init]

/-- C4 witness: a session that receives one garbage datagram before the
deadline and a real response only after the deadline resolves to timeout with
no count and no latency. -/
theorem no_response_times_out_witness :
    query_master "master3" (SessionConfig.runs 0 1
        [TimedEvent.mk 0 (Event.datagram [0x00]),
         TimedEvent.mk 7 (Event.datagram (packet_count_response ++ [0, 9]))]) =
      { name := "master3", server_count := none, latency := none,
        status := "timeout" } :=
  no_response_times_out "master3" 0 1
    [TimedEvent.mk 0 (Event.datagram [0x00]),
     TimedEvent.mk 7 (Event.datagram (packet_count_response ++ [0, 9]))]
    (by decide)

/-- C5: every exception inside a single query session is converted to a
`MasterInfo` with status `"error"` carrying the endpoint's name: endpoint
creation failure and a transport error reported before the deadline both
yield the error `MasterInfo`; `query_master` is a total function whose status
is always one of `"ok"`, `"timeout"`, `"error"` and whose name is always the
endpoint's; and the orchestrator still returns a full snapshot containing
every endpoint. -/
theorem session_failures_contained (name : String) (cfg : SessionConfig)
    (start timeout t : Int) (pre post : List TimedEvent)
    (registry : List (String × SessionConfig)) (arrived : List MasterInfo)
    (hpre : ∀ e ∈ pre, changes_waiter e = false)
    (ht : t < start + timeout)
    (harr : arrived.Perm (cycle_results registry)) :
    query_master name SessionConfig.setupFailure =
      { name := name, server_count := none, latency := none,
        status := "error" } ∧
    query_master name (SessionConfig.runs start timeout
        (pre ++ TimedEvent.mk t Event.err :: post)) =
      { name := name, server_count := none, latency := none,
        status := "error" } ∧
    ((query_master name cfg).status = "ok" ∨
      (query_master name cfg).status = "timeout" ∨
      (query_master name cfg).status = "error") ∧
    (query_master name cfg).name = name ∧
    (update arrived).length = registry.length ∧
    (∀ p ∈ registry, p.1 ∈ (update arrived).map MasterInfo.name) := by
  refine ⟨rfl, ?_, query_master_status name cfg, query_master_name name cfg, ?_, ?_⟩
  · simp [query_master, wait_result_err start timeout t pre post hpre ht,
      MasterInfo.init]
  · unfold update
    rw [((sortByName_perm arrived).trans harr).length_eq]
    simp [cycle_results]
  · intro p hp
    have h1 : query_master p.1 p.2 ∈ cycle_results registry := by
      simp only [cycle_results]
      exact List.mem_map.mpr ⟨p, hp, rfl⟩
    have h2 : query_master p.1 p.2 ∈ update arrived :=
      ((sortByName_perm arrived).trans harr).mem_iff.mpr h1
    exact List.mem_map.mpr ⟨query_master p.1 p.2, h2, query_master_name p.1 p.2⟩

/-- C5 witness: a registry of two endpoints, one failing at setup and one
reporting a transport error, still yields a two-entry snapshot containing
both names, with both failures converted to error results. -/
theorem session_failures_contained_witness :
    query_master "b" SessionConfig.setupFailure =
      { name := "b", server_count := none, latency := none,
        status := "error" } ∧
    query_master "b" (SessionConfig.runs 0 5
        ([] ++ TimedEvent.mk 1 Event.err :: [])) =
      { name := "b", server_count := none, latency := none,
        status := "error" } ∧
    ((query_master "b" SessionConfig.setupFailure).status = "ok" ∨
      (query_master "b" SessionConfig.setupFailure).status = "timeout" ∨
      (query_master "b" SessionConfig.setupFailure).status = "error") ∧
    (query_master "b" SessionConfig.setupFailure).name = "b" ∧
    (update (cycle_results
        [("b", SessionConfig.setupFailure),
         ("a", SessionConfig.runs 0 5 [TimedEvent.mk 1 Event.err])])).length =
      ([("b", SessionConfig.setupFailure),
        ("a", SessionConfig.runs 0 5 [TimedEvent.mk 1 Event.err])] :
          List (String × SessionConfig)).length ∧
    (∀ p ∈ ([("b", SessionConfig.setupFailure),
        ("a", SessionConfig.runs 0 5 [TimedEvent.mk 1 Event.err])] :
          List (String × SessionConfig)),
      p.1 ∈ (update (cycle_results
        [("b", SessionConfig.setupFailure),
         ("a", SessionConfig.runs 0 5 [TimedEvent.mk 1 Event.err])])).map
          MasterInfo.name) :=
  session_failures_contained "b" SessionConfig.setupFailure 0 5 1 [] []
    [("b", SessionConfig.setupFailure),
     ("a", SessionConfig.runs 0 5 [TimedEvent.mk 1 Event.err])]
    (cycle_results
      [("b", SessionConfig.setupFailure),
       ("a", SessionConfig.runs 0 5 [TimedEvent.mk 1 Event.err])])
    (by decide) (by decide) (List.Perm.refl _)

/-- C1: for every registry with distinct names, the snapshot produced by one
orchestration pass has exactly as many entries as the registry, its names are
exactly the registry names (each exactly once), it is sorted ascending by
name, and it is the same for any two arrival orders of the underlying
results. -/
theorem snapshot_invariants (registry : List (String × SessionConfig))
    (arrived arrived' : List MasterInfo)
    (hnodup : (registry.map Prod.fst).Nodup)
    (h : arrived.Perm (cycle_results registry))
    (h' : arrived'.Perm (cycle_results registry)) :
    (update arrived).length = registry.length ∧
    ((update arrived).map MasterInfo.name).Perm (registry.map Prod.fst) ∧
    (∀ n ∈ registry.map Prod.fst,
      ((update arrived).map MasterInfo.name).count n = 1) ∧
    (update arrived).Sorted (fun x y => nameLe x y = true) ∧
    update arrived' = update arrived := by
  have hperm : (update arrived).Perm (cycle_results registry) :=
    (sortByName_perm arrived).trans h
  have hperm' : (update arrived').Perm (cycle_results registry) :=
    (sortByName_perm arrived').trans h'
  have hnames : ((update arrived).map MasterInfo.name).Perm
      (registry.map Prod.fst) := by
    rw [← cycle_results_names]
    exact hperm.map MasterInfo.name
  have hnames' : ((update arrived').map MasterInfo.name).Perm
      (registry.map Prod.fst) := by
    rw [← cycle_results_names]
    exact hperm'.map MasterInfo.name
  refine ⟨?_, hnames, ?_, sortByName_sorted arrived, ?_⟩
  · rw [hperm.length_eq]
    simp [cycle_results]
  · intro n hn
    exact List.count_eq_one_of_mem (hnames.nodup_iff.mpr hnodup)
      (hnames.mem_iff.mpr hn)
  · exact sorted_nodup_names_eq (update arrived') (update arrived)
      (hperm'.trans hperm.symm) (sortByName_sorted arrived')
      (sortByName_sorted arrived) (hnames'.nodup_iff.mpr hnodup)

/-- C1 witness registry: the five `masters` endpoints, all failing at
setup. -/
def registryW : List (String × SessionConfig) :=
  masters.map (fun p => (p.1, SessionConfig.setupFailure))

/-- C1 witness: for the five-endpoint registry, a reversed arrival order and
the in-order arrival produce the same five-entry, name-sorted snapshot. -/
theorem snapshot_invariants_witness :
    (update ((cycle_results registryW).reverse)).length = registryW.length ∧
    ((update ((cycle_results registryW).reverse)).map MasterInfo.name).Perm
      (registryW.map Prod.fst) ∧
    (∀ n ∈ registryW.map Prod.fst,
      ((update ((cycle_results registryW).reverse)).map MasterInfo.name).count n
        = 1) ∧
    (update ((cycle_results registryW).reverse)).Sorted
      (fun x y => nameLe x y = true) ∧
    update (cycle_results registryW) = update ((cycle_results registryW).reverse) :=
  snapshot_invariants registryW ((cycle_results registryW).reverse)
    (cycle_results registryW) (by decide) (List.reverse_perm _) (List.Perm.refl _)

/-- C6 counterexample: the claim "for `Ok` status the renderer outputs
`{name, "ok", server_count, latency}`" fails on a delivered snapshot entry:
an endpoint that reports zero servers resolves to status `"ok"` with
`server_count = 0`, yet `html_print` renders the dash row for it, because the
code tests Python truthiness (`if not masterinfo.server_count or not
masterinfo.latency`) rather than the status. -/
theorem renderer_ok_zero_count_cex :
    (query_master "master1" (SessionConfig.runs 0 10
        [TimedEvent.mk 5 (Event.datagram (packet_count_response ++ [0, 0]))])).status
      = "ok" ∧
    (query_master "master1" (SessionConfig.runs 0 10
        [TimedEvent.mk 5 (Event.datagram (packet_count_response ++ [0, 0]))])).server_count
      = some 0 ∧
    render_row (query_master "master1" (SessionConfig.runs 0 10
        [TimedEvent.mk 5 (Event.datagram (packet_count_response ++ [0, 0]))])) =
      { name := "master1", status := "ok", servers := "-", latency := "-" } := by
  decide

/-- C6 (amended): the renderer outputs the full row
`{name, status, server_count, latency}` exactly when both `server_count` and
`latency` are present and non-zero (in delivered snapshots that implies
status `"ok"`); in every other case — all non-`"ok"` entries, and `"ok"`
entries whose count or latency is zero — it outputs the dash row
`{name, status-label, "-", "-"}`. -/
theorem renderer_truthiness (m m' : MasterInfo) (n : Nat) (lat : Int)
    (nm : String) (cfg : SessionConfig)
    (hc : m.server_count = some n) (hl : m.latency = some lat)
    (hn : n ≠ 0) (hlat : lat ≠ 0)
    (hm' : m'.server_count.getD 0 = 0 ∨ m'.latency.getD 0 = 0)
    (hnotok : (query_master nm cfg).status ≠ "ok") :
    render_row m = { name := m.name, status := m.status,
                     servers := toString n, latency := fmt_latency lat } ∧
    render_row m' = { name := m'.name, status := m'.status,
                      servers := "-", latency := "-" } ∧
    render_row (query_master nm cfg) =
      { name := nm, status := (query_master nm cfg).status,
        servers := "-", latency := "-" } := by
  refine ⟨?_, ?_, ?_⟩
  · simp [render_row, hc, hl, hn, hlat]
  · cases hc' : m'.server_count with
    | none => simp [render_row, hc']
    | some k =>
      cases hl' : m'.latency with
      | none => simp [render_row, hc', hl']
      | some l =>
        rw [hc', hl'] at hm'
        simp only [Option.getD_some] at hm'
        simp [render_row, hc', hl', hm']
  · have hq := query_master_not_ok nm cfg hnotok
    rw [hq]
    simp [render_row]

/-- C6 witness: a non-zero ok entry renders in full, a zero-count ok entry
and an error result both render as dash rows. -/
theorem renderer_truthiness_witness :
    render_row { name := "a", server_count := some 7, latency := some 2,
                 status := "ok" } =
      { name := "a", status := "ok", servers := toString 7,
        latency := fmt_latency 2 } ∧
    render_row { name := "c", server_count := some 0, latency := some 2,
                 status := "ok" } =
      { name := "c", status := "ok", servers := "-", latency := "-" } ∧
    render_row (query_master "e" SessionConfig.setupFailure) =
      { name := "e", status := (query_master "e" SessionConfig.setupFailure).status,
        servers := "-", latency := "-" } :=
  renderer_truthiness
    { name := "a", server_count := some 7, latency := some 2, status := "ok" }
    { name := "c", server_count := some 0, latency := some 2, status := "ok" }
    7 2 "e" SessionConfig.setupFailure rfl rfl (by decide) (by decide)
    (by decide) (by decide)

/-- C7: a session resolves at most once and exactly once per cycle: a
completed future is never changed by later events, the `wait_for` result is
never pending, the protocol's final future state equals that single result
even after post-deadline datagrams, and `query_master` yields exactly one of
the three statuses. -/
theorem session_resolves_once (start timeout : Int)
    (events extra : List TimedEvent) (st : ProtocolState) (name : String)
    (h : st.waiter ≠ FutureState.pending) :
    run_events st extra = st ∧
    wait_result start timeout events ≠ FutureState.pending ∧
    (final_state start timeout events).waiter = wait_result start timeout events ∧
    ((query_master name (SessionConfig.runs start timeout events)).status = "ok" ∨
     (query_master name (SessionConfig.runs start timeout events)).status = "timeout" ∨
     (query_master name (SessionConfig.runs start timeout events)).status = "error") :=
  ⟨run_events_done st extra h, wait_result_ne_pending start timeout events,
    final_state_waiter start timeout events, query_master_status name _⟩

/-- C7 witness: a resolved session's state survives a later matching datagram
and a later error unchanged, and the session run at the concrete schedule
resolves exactly once. -/
theorem session_resolves_once_witness :
    run_events ⟨0, FutureState.exception⟩
        [TimedEvent.mk 3 (Event.datagram (packet_count_response ++ [0, 2])),
         TimedEvent.mk 4 Event.err] =
      ⟨0, FutureState.exception⟩ ∧
    wait_result 0 1 [TimedEvent.mk 0 (Event.datagram (packet_count_response ++ [0, 2]))]
      ≠ FutureState.pending ∧
    (final_state 0 1
        [TimedEvent.mk 0 (Event.datagram (packet_count_response ++ [0, 2]))]).waiter =
      wait_result 0 1 [TimedEvent.mk 0 (Event.datagram (packet_count_response ++ [0, 2]))] ∧
    ((query_master "m" (SessionConfig.runs 0 1
        [TimedEvent.mk 0 (Event.datagram (packet_count_response ++ [0, 2]))])).status
        = "ok" ∨
     (query_master "m" (SessionConfig.runs 0 1
        [TimedEvent.mk 0 (Event.datagram (packet_count_response ++ [0, 2]))])).status
        = "timeout" ∨
     (query_master "m" (SessionConfig.runs 0 1
        [TimedEvent.mk 0 (Event.datagram (packet_count_response ++ [0, 2]))])).status
        = "error") :=
  session_resolves_once 0 1
    [TimedEvent.mk 0 (Event.datagram (packet_count_response ++ [0, 2]))]
    [TimedEvent.mk 3 (Event.datagram (packet_count_response ++ [0, 2])),
     TimedEvent.mk 4 Event.err]
    ⟨0, FutureState.exception⟩ "m" (by decide)

/-- C8: the poll loop has no iteration limit — its trace is defined for every
`n` — and each iteration appends one completed orchestration pass with its
snapshot delivery followed by a fixed sleep of 10 time units, so cycle `n+1`'s
events all come after cycle `n`'s delivery. -/
theorem poll_loop_structure (arrivals : Nat → List MasterInfo) (n : Nat) :
    main_trace arrivals (n + 1) =
      main_trace arrivals n ++
        [LoopEvent.deliverSnapshot (update (arrivals n)), LoopEvent.sleep 10] ∧
    main_trace arrivals n =
      (List.range n).flatMap
        (fun k => [LoopEvent.deliverSnapshot (update (arrivals k)),
          LoopEvent.sleep 10]) ∧
    (main_trace arrivals n).length = 2 * n := by
  refine ⟨rfl, ?_, ?_⟩
  · induction n with
    | zero => rfl
    | succ m ih =>
      rw [List.range_succ, List.flatMap_append]
      show main_trace arrivals m ++ _ = _
      rw [ih]
      simp
  · induction n with
    | zero => rfl
    | succ m ih =>
      show (main_trace arrivals m ++ _).length = _
      rw [List.length_append, ih]
      show 2 * m + 2 = 2 * (m + 1)
      omega

/-- C9 (code-bug evidence): on every session that creates its endpoint, the
transport actions performed by `query_master` contain the creation but no
close — the source never calls `transport.close()` on any exit path (ok,
timeout, or error), contradicting the claimed scoped release. -/
theorem transport_never_closed (start timeout : Int) (events : List TimedEvent) :
    ResourceAction.create ∈
      query_master_transport_actions (SessionConfig.runs start timeout events) ∧
    ResourceAction.close ∉
      query_master_transport_actions (SessionConfig.runs start timeout events) := by
  constructor
  · simp [query_master_transport_actions]
  · simp [query_master_transport_actions]

/-- C10: a datagram that starts with the 14-byte response packet and is
strictly longer, but whose total length is not 16, passes the match filter
yet makes `struct.unpack('!H')` raise inside the handler: the decode yields
no value, the protocol state is unchanged, and the session behaves exactly as
if the datagram had never arrived — it keeps waiting and resolves via a later
datagram or the timeout. -/
theorem matching_bad_length_keeps_waiting (st : ProtocolState)
    (data : List Byte) (now : Int) (name : String) (start timeout t : Int)
    (rest : List TimedEvent)
    (hlen : packet_count_response.length < data.length)
    (hsw : startswith data packet_count_response = true)
    (hne : data.length ≠ packet_count_response.length + 2) :
    unpack_H (data.drop packet_count_response.length) = none ∧
    datagram_received st data now = st ∧
    query_master name (SessionConfig.runs start timeout
        (TimedEvent.mk t (Event.datagram data) :: rest)) =
      query_master name (SessionConfig.runs start timeout rest) := by
  have hres : resolving data = false := by
    cases hq : resolving data
    · rfl
    · exact absurd ((resolving_iff data).mp hq).2.2 hne
  refine ⟨?_, datagram_received_not_resolving st data now hres, ?_⟩
  · apply unpack_H_eq_none
    rw [List.length_drop]
    omega
  · simp only [query_master]
    rw [wait_result_inert_cons start timeout _ rest (by simpa [changes_waiter] using hres)]

/-- C10 witness: a 15-byte datagram starting with the response packet is
decoded to nothing, changes no state, and leaves the session to time out as
if it had never arrived. -/
theorem matching_bad_length_keeps_waiting_witness :
    unpack_H ((packet_count_response ++ [5]).drop packet_count_response.length)
      = none ∧
    datagram_received ⟨0, FutureState.pending⟩ (packet_count_response ++ [5]) 0 =
      ⟨0, FutureState.pending⟩ ∧
    query_master "m" (SessionConfig.runs 0 1
        (TimedEvent.mk 0 (Event.datagram (packet_count_response ++ [5])) :: [])) =
      query_master "m" (SessionConfig.runs 0 1 []) :=
  matching_bad_length_keeps_waiting ⟨0, FutureState.pending⟩
    (packet_count_response ++ [5]) 0 "m" 0 1 0 []
    (by decide) (by decide) (by decide)

end MasterStatus
